import Mathlib

/-!
A shallow embedding of the caching core of `type-cacheable` (key resolution,
client resolution, TTL resolution and the three decorator strategies), together
with theorems settling the specification's claims about it.

The repository's `src/` tree ships only the README and the `util/index.ts`
re-export list (`determineOp`, `extractKey`, `getCacheKey`, `getFinalKey`,
`getCacheStrategy`, `getCacheClearStrategy`, `getTTL`, `parseIfRequired`,
`withTimeout`); the implementing modules themselves are not present.  All
executable definitions below are therefore modelled from the specification's
description of those modules, as indicated in each doc comment.
-/

namespace TypeCacheable

/-- Modelled from the spec: glob-style pattern matching used by the backend's
`keys(pattern)` operation for pattern deletion (the adapter implementation is
not under `src/`).  `tryTails f cs` tests `f` on every suffix of `cs`, which is
how a `*` wildcard consumes an arbitrary prefix of the remaining string. -/
def tryTails (f : List Char → Bool) : List Char → Bool
  | [] => f []
  | c :: cs => f (c :: cs) || tryTails f cs

/-- Modelled from the spec: character-level glob matching.  `*` matches any
(possibly empty) sequence of characters; every other pattern character matches
exactly itself. -/
def globMatchChars : List Char → List Char → Bool
  | [], cs => cs.isEmpty
  | p :: ps, cs =>
    if p = '*' then tryTails (globMatchChars ps) cs
    else
      match cs with
      | [] => false
      | c :: cs2 => p == c && globMatchChars ps cs2

/-- Modelled from the spec: glob-style pattern matching on strings, e.g. the
pattern `foo*` matches `foo`, `foolish` and `foo-bar` but not `bar`. -/
def globMatch (pat s : String) : Bool :=
  globMatchChars pat.toList s.toList

/-- The backend store, modelled as an association list from keys to serialized
values (first binding wins). -/
abbrev Store := List (String × String)

/-- Lookup of a key in the backend store (the value behind a successful
`get`). -/
def storeGet : Store → String → Option String
  | [], _ => none
  | (k2, v) :: tl, k => if k2 = k then some v else storeGet tl k

/-- Boolean membership of a string in a list of strings (used for deletion
sets). -/
def memStr : List String → String → Bool
  | [], _ => false
  | a :: tl, k => if a = k then true else memStr tl k

/-- Removal of every binding whose key occurs in `ks` (the effect of a
successful `del`). -/
def storeDel : Store → List String → Store
  | [], _ => []
  | (k2, v) :: tl, ks => if memStr ks k2 then storeDel tl ks else (k2, v) :: storeDel tl ks

/-- Insertion of a binding, replacing any previous binding of the same key
(the effect of a successful `set`; TTL-based expiry is delegated to the
backend and not part of the store model). -/
def storeSet (st : Store) (k v : String) : Store :=
  (k, v) :: storeDel st [k]

/-- The keys of the store matching a glob pattern (the result of a successful
`keys(pattern)`). -/
def storeKeysMatching : Store → String → List String
  | [], _ => []
  | (k2, _) :: tl, pat =>
    if globMatch pat k2 then k2 :: storeKeysMatching tl pat else storeKeysMatching tl pat

/-- Modelled from the spec: a backend client satisfying the capability contract
`get` / `set` / `del` / `keys`.  Each operation "returns a deferred result that
may fail"; failure behaviour is modelled by one always-fail flag per
operation (a flag set to `true` makes every call of that operation fail). -/
structure CacheClient where
  store : Store
  getFails : Bool
  setFails : Bool
  delFails : Bool
  keysFails : Bool
deriving Repr, DecidableEq

/-- Modelled from the spec: `get(key) → value | empty`, returning `none` when
the operation fails, `some none` on a clean miss and `some (some v)` on a
hit. -/
def clientGet (c : CacheClient) (k : String) : Option (Option String) :=
  if c.getFails then none else some (storeGet c.store k)

/-- Modelled from the spec: `set(key, value, ttlSeconds)`, returning the
updated client or `none` on failure.  The TTL is a hint delegated entirely to
the backend, so it does not alter the modelled store. -/
def clientSet (c : CacheClient) (k v : String) (_ttl : Nat) : Option CacheClient :=
  if c.setFails then none else some { c with store := storeSet c.store k v }

/-- Modelled from the spec: `del(keys)`, returning the updated client or
`none` on failure. -/
def clientDel (c : CacheClient) (ks : List String) : Option CacheClient :=
  if c.delFails then none else some { c with store := storeDel c.store ks }

/-- Modelled from the spec: `keys(pattern)`, listing the keys matching a
glob-style pattern, or `none` on failure. -/
def clientKeys (c : CacheClient) (pat : String) : Option (List String) :=
  if c.keysFails then none else some (storeKeysMatching c.store pat)

/-- Modelled from the spec: a `cacheKey` / `hashKey` specification — either a
literal string or a builder function of `(args, context, returnValue?)`.  A
builder returning `none` models a builder that throws; the `returnValue`
argument is populated only by the post-run CacheUpdate strategy. -/
inductive KeySpec where
  | lit (s : String)
  | build (f : List String → Option String → Option String → Option String)

/-- Modelled from the spec: a delete key specification for `CacheClear` /
`cacheKeysToClear` — a literal, an array of literals, or a builder returning
an array of keys (`none` models a throwing builder). -/
inductive DelSpec where
  | lit (s : String)
  | lits (ss : List String)
  | build (f : List String → Option String → Option (List String))

/-- Modelled from the spec: a `ttlSeconds` specification — a literal number of
seconds or a builder function of the call arguments (`none` models a throwing
builder). -/
inductive TTLSpec where
  | lit (n : Nat)
  | build (f : List String → Option Nat)

/-- Serialization of the ordered argument list for auto-generated keys. -/
def serializeArgs (args : List String) : String :=
  String.intercalate "," args

/-- Modelled from the spec: the auto-generated cache key — a stable
serialization of the method's identity, the ordered arguments and (only when
`excludeContext` is `false`) the receiver context. -/
def autoKey (methodName : String) (args : List String) (ctx : Option String)
    (excludeContext : Bool) : String :=
  methodName ++ "(" ++ serializeArgs args ++ ")" ++
    (if excludeContext then "" else "@" ++ (match ctx with | some c => c | none => "undefined"))

/-- Modelled from the spec: `extractKey` — a literal key spec is returned
unchanged, a builder is invoked with `(args, context[, returnValue])`. -/
def extractKey : KeySpec → List String → Option String → Option String → Option String
  | .lit s, _, _, _ => some s
  | .build f, args, ctx, ret => f args ctx ret

/-- Modelled from the spec: `getCacheKey` — use the passed-in key spec when
present, otherwise fall back to the auto-generated key. -/
def getCacheKey (spec : Option KeySpec) (methodName : String) (args : List String)
    (ctx : Option String) (ret : Option String) (excludeContext : Bool) : Option String :=
  match spec with
  | none => some (autoKey methodName args ctx excludeContext)
  | some s => extractKey s args ctx ret

/-- Modelled from the spec: `getFinalKey` — the resolved `hashKey`, when one is
configured, is combined with the resolved `cacheKey` into the single storage
key `hashKey:cacheKey`; with no `hashKey` the final key is the resolved
`cacheKey` alone.  `none` signals a key-resolution failure (a builder threw). -/
def getFinalKey (cacheKeySpec hashKeySpec : Option KeySpec) (methodName : String)
    (args : List String) (ctx : Option String) (ret : Option String)
    (excludeContext : Bool) : Option String :=
  match getCacheKey cacheKeySpec methodName args ctx ret excludeContext with
  | none => none
  | some ck =>
    match hashKeySpec with
    | none => some ck
    | some hs =>
      match extractKey hs args ctx ret with
      | none => none
      | some hk => some (hk ++ ":" ++ ck)

/-- Modelled from the spec: resolution of a delete key spec into the list of
keys (or patterns) to clear. -/
def resolveDelSpec : DelSpec → List String → Option String → Option (List String)
  | .lit s, _, _ => some [s]
  | .lits ss, _, _ => some ss
  | .build f, args, ctx => f args ctx

/-- Modelled from the spec: the delete key spec of `CacheClear` — an absent
`cacheKey` falls back to the auto-generated key of the call. -/
def resolveDelKeys (spec : Option DelSpec) (methodName : String) (args : List String)
    (ctx : Option String) (excludeContext : Bool) : Option (List String) :=
  match spec with
  | none => some [autoKey methodName args ctx excludeContext]
  | some ds => resolveDelSpec ds args ctx

/-- Modelled from the spec: the `cacheKeysToClear` list of `CacheUpdate` — an
absent spec means nothing is cleared. -/
def resolveClearList (spec : Option DelSpec) (args : List String)
    (ctx : Option String) : Option (List String) :=
  match spec with
  | none => some []
  | some ds => resolveDelSpec ds args ctx

/-- Modelled from the spec: `getTTL` — a literal is used as-is, a builder is
invoked with the call arguments, and an absent spec falls back to the global
default from the Cache Manager. -/
def getTTL (spec : Option TTLSpec) (args : List String) (globalTTL : Nat) : Option Nat :=
  match spec with
  | none => some globalTTL
  | some (.lit n) => some n
  | some (.build f) => f args

/-- Modelled from the spec: the process-wide Cache Manager state — default
client, fallback client, `excludeContext` (default `true`) and the global
default TTL (default `0`, i.e. no expiry). -/
structure CacheManagerState where
  client : Option CacheClient
  fallbackClient : Option CacheClient
  excludeContext : Bool
  ttlSeconds : Nat

/-- Modelled from the spec: client resolution — a call-site-provided client
takes precedence over the global default from the Cache Manager; the same rule
applies to the fallback client. -/
def resolveClient (callSite global : Option CacheClient) : Option CacheClient :=
  match callSite with
  | some c => some c
  | none => global

/-- One backend operation attempt, as recorded in the trace of a decorated
call (`invokeOp` records the invocation of the wrapped method itself). -/
inductive Op where
  | getOp (key : String)
  | setOp (key value : String)
  | delOp (keys : List String)
  | keysOp (pat : String)
  | invokeOp
deriving Repr, DecidableEq

deriving instance DecidableEq for Except

/-- The observable result of one decorated call: the caller-visible outcome,
the resolved primary and fallback clients after the call (each `none` when no
client was resolvable), and the ordered trace of attempted operations. -/
structure RunResult where
  outcome : Except String String
  primary : Option CacheClient
  fallback : Option CacheClient
  trace : List Op
deriving Repr, DecidableEq

/-- Modelled from the spec: the MISS branch of the default Cacheable strategy —
invoke the wrapped method; a throw is propagated untouched with no cache
write; a resolved value is written best-effort to the primary (and to the
fallback client, if configured) after resolving the TTL, set failures being
swallowed; a TTL-resolution failure skips the write. -/
def cacheableMiss (cfg0ttl : Option TTLSpec) (mgr : CacheManagerState) (p : CacheClient)
    (f0 : Option CacheClient) (key : String) (args : List String)
    (method : Except String String) (tr : List Op) : RunResult :=
  match method with
  | Except.error e => ⟨Except.error e, some p, f0, tr ++ [Op.invokeOp]⟩
  | Except.ok v =>
    match getTTL cfg0ttl args mgr.ttlSeconds with
    | none => ⟨Except.ok v, some p, f0, tr ++ [Op.invokeOp]⟩
    | some ttl =>
      match f0 with
      | none =>
        ⟨Except.ok v, some ((clientSet p key v ttl).getD p), none,
          tr ++ [Op.invokeOp, Op.setOp key v]⟩
      | some fb =>
        ⟨Except.ok v, some ((clientSet p key v ttl).getD p),
          some ((clientSet fb key v ttl).getD fb),
          tr ++ [Op.invokeOp, Op.setOp key v, Op.setOp key v]⟩

/-- Modelled from the spec: the read path of the default Cacheable strategy
once a primary client `p` is resolved — attempt `get(key)`; a hit returns the
deserialized cached value without invoking the method; a get failure is
retried once on the fallback client when one is configured; a clean miss or a
total get failure falls through to the MISS branch. -/
def cacheableGo (cko hko : Option KeySpec) (tso : Option TTLSpec)
    (mgr : CacheManagerState) (p : CacheClient) (f0 : Option CacheClient)
    (methodName : String) (args : List String) (ctx : Option String)
    (method : Except String String) : RunResult :=
  match getFinalKey cko hko methodName args ctx none mgr.excludeContext with
  | none => ⟨method, some p, f0, [Op.invokeOp]⟩
  | some key =>
    match clientGet p key with
    | some (some v) => ⟨Except.ok v, some p, f0, [Op.getOp key]⟩
    | some none => cacheableMiss tso mgr p f0 key args method [Op.getOp key]
    | none =>
      match f0 with
      | none => cacheableMiss tso mgr p none key args method [Op.getOp key]
      | some fb =>
        match clientGet fb key with
        | some (some v) => ⟨Except.ok v, some p, some fb, [Op.getOp key, Op.getOp key]⟩
        | some none =>
          cacheableMiss tso mgr p (some fb) key args method [Op.getOp key, Op.getOp key]
        | none =>
          cacheableMiss tso mgr p (some fb) key args method [Op.getOp key, Op.getOp key]

/-- Modelled from the spec: the per-call-site options of `@Cacheable`. -/
structure CacheOptions where
  cacheKey : Option KeySpec
  hashKey : Option KeySpec
  client : Option CacheClient
  fallbackClient : Option CacheClient
  noop : Bool
  ttlSeconds : Option TTLSpec

/-- Modelled from the spec: the per-call-site options of `@CacheClear`. -/
structure CacheClearOptions where
  cacheKey : Option DelSpec
  client : Option CacheClient
  fallbackClient : Option CacheClient
  noop : Bool
  isPattern : Bool

/-- Modelled from the spec: the per-call-site options of `@CacheUpdate`. -/
structure CacheUpdateOptions where
  cacheKey : Option KeySpec
  hashKey : Option KeySpec
  cacheKeysToClear : Option DelSpec
  client : Option CacheClient
  fallbackClient : Option CacheClient
  noop : Bool
  ttlSeconds : Option TTLSpec
  isPattern : Bool
  clearAndUpdateInParallel : Bool

/-- Modelled from the spec: one decorated call under the default Cacheable
strategy — with `noop` the wrapped method is invoked directly with no backend
interaction; with no resolvable client or a failed key resolution the call
falls through to direct invocation; otherwise the read path runs. -/
def cacheableRun (cfg : CacheOptions) (mgr : CacheManagerState) (methodName : String)
    (args : List String) (ctx : Option String) (method : Except String String) : RunResult :=
  if cfg.noop then
    ⟨method, resolveClient cfg.client mgr.client,
      resolveClient cfg.fallbackClient mgr.fallbackClient, [Op.invokeOp]⟩
  else
    match resolveClient cfg.client mgr.client with
    | none =>
      ⟨method, none, resolveClient cfg.fallbackClient mgr.fallbackClient, [Op.invokeOp]⟩
    | some p =>
      cacheableGo cfg.cacheKey cfg.hashKey cfg.ttlSeconds mgr p
        (resolveClient cfg.fallbackClient mgr.fallbackClient) methodName args ctx method

/-- Modelled from the spec: a best-effort `del` of a key set — attempted on
the primary client and, should that fail, retried once on the fallback client
when one is configured; every failure is swallowed. -/
def delWithFallback (p : CacheClient) (f0 : Option CacheClient) (ks : List String) :
    CacheClient × Option CacheClient × List Op :=
  match clientDel p ks with
  | some p2 => (p2, f0, [Op.delOp ks])
  | none =>
    match f0 with
    | none => (p, none, [Op.delOp ks])
    | some fb => (p, some ((clientDel fb ks).getD fb), [Op.delOp ks, Op.delOp ks])

/-- Modelled from the spec: the clearing step shared by `CacheClear` and
`CacheUpdate` — with `isPattern` each resolved key is treated as a glob-style
pattern whose matching keys are listed via `keys(pattern)` and then deleted as
a set (a `keys` failure being swallowed); otherwise the literal keys are
deleted directly. -/
def clearKeysRun (p : CacheClient) (f0 : Option CacheClient) (ks : List String)
    (isPat : Bool) : CacheClient × Option CacheClient × List Op :=
  if isPat then
    ks.foldl
      (fun acc pat =>
        match clientKeys acc.1 pat with
        | none => (acc.1, acc.2.1, acc.2.2 ++ [Op.keysOp pat])
        | some matched =>
          match delWithFallback acc.1 acc.2.1 matched with
          | (p2, f2, tr2) => (p2, f2, acc.2.2 ++ [Op.keysOp pat] ++ tr2))
      (p, f0, [])
  else delWithFallback p f0 ks

/-- Modelled from the spec: one decorated call under the default CacheClear
strategy — the wrapped method runs first; a throw is propagated with no cache
mutation at all; on success the delete key spec is resolved (a failed
resolution disables the clear) and the keys are cleared best-effort. -/
def cacheClearRun (cfg : CacheClearOptions) (mgr : CacheManagerState) (methodName : String)
    (args : List String) (ctx : Option String) (method : Except String String) : RunResult :=
  if cfg.noop then
    ⟨method, resolveClient cfg.client mgr.client,
      resolveClient cfg.fallbackClient mgr.fallbackClient, [Op.invokeOp]⟩
  else
    match method with
    | Except.error e =>
      ⟨Except.error e, resolveClient cfg.client mgr.client,
        resolveClient cfg.fallbackClient mgr.fallbackClient, [Op.invokeOp]⟩
    | Except.ok v =>
      match resolveClient cfg.client mgr.client with
      | none =>
        ⟨Except.ok v, none, resolveClient cfg.fallbackClient mgr.fallbackClient, [Op.invokeOp]⟩
      | some p =>
        match resolveDelKeys cfg.cacheKey methodName args ctx mgr.excludeContext with
        | none =>
          ⟨Except.ok v, some p, resolveClient cfg.fallbackClient mgr.fallbackClient,
            [Op.invokeOp]⟩
        | some ks =>
          match clearKeysRun p (resolveClient cfg.fallbackClient mgr.fallbackClient) ks
              cfg.isPattern with
          | (p2, f2, tr) => ⟨Except.ok v, some p2, f2, [Op.invokeOp] ++ tr⟩

/-- Modelled from the spec: the update-then-clear steps of the default
CacheUpdate strategy once the method has succeeded with value `v` and a
primary client `p` is resolved — resolve the final key with
`(args, context, returnValue)`, set the new value best-effort (a TTL failure
skipping the write), then resolve `cacheKeysToClear` and clear those keys
exactly as CacheClear does.  The backend effects of the parallel mode
(`clearAndUpdateInParallel`) coincide with the sequential set-then-clear
interleaving in this single-threaded model. -/
def cacheUpdateGo (cfg : CacheUpdateOptions) (mgr : CacheManagerState) (p : CacheClient)
    (f0 : Option CacheClient) (methodName : String) (args : List String)
    (ctx : Option String) (v : String) : RunResult :=
  match getFinalKey cfg.cacheKey cfg.hashKey methodName args ctx (some v)
      mgr.excludeContext with
  | none => ⟨Except.ok v, some p, f0, [Op.invokeOp]⟩
  | some key =>
    match getTTL cfg.ttlSeconds args mgr.ttlSeconds with
    | none =>
      match resolveClearList cfg.cacheKeysToClear args ctx with
      | none => ⟨Except.ok v, some p, f0, [Op.invokeOp]⟩
      | some [] => ⟨Except.ok v, some p, f0, [Op.invokeOp]⟩
      | some ks =>
        match clearKeysRun p f0 ks cfg.isPattern with
        | (p2, f2, tr) => ⟨Except.ok v, some p2, f2, [Op.invokeOp] ++ tr⟩
    | some ttl =>
      match f0 with
      | none =>
        match resolveClearList cfg.cacheKeysToClear args ctx with
        | none =>
          ⟨Except.ok v, some ((clientSet p key v ttl).getD p), none,
            [Op.invokeOp, Op.setOp key v]⟩
        | some [] =>
          ⟨Except.ok v, some ((clientSet p key v ttl).getD p), none,
            [Op.invokeOp, Op.setOp key v]⟩
        | some ks =>
          match clearKeysRun ((clientSet p key v ttl).getD p) none ks cfg.isPattern with
          | (p2, f2, tr) =>
            ⟨Except.ok v, some p2, f2, [Op.invokeOp, Op.setOp key v] ++ tr⟩
      | some fb =>
        match resolveClearList cfg.cacheKeysToClear args ctx with
        | none =>
          ⟨Except.ok v, some ((clientSet p key v ttl).getD p),
            some ((clientSet fb key v ttl).getD fb),
            [Op.invokeOp, Op.setOp key v, Op.setOp key v]⟩
        | some [] =>
          ⟨Except.ok v, some ((clientSet p key v ttl).getD p),
            some ((clientSet fb key v ttl).getD fb),
            [Op.invokeOp, Op.setOp key v, Op.setOp key v]⟩
        | some ks =>
          match clearKeysRun ((clientSet p key v ttl).getD p)
              (some ((clientSet fb key v ttl).getD fb)) ks cfg.isPattern with
          | (p2, f2, tr) =>
            ⟨Except.ok v, some p2, f2, [Op.invokeOp, Op.setOp key v, Op.setOp key v] ++ tr⟩

/-- Modelled from the spec: one decorated call under the default CacheUpdate
strategy — the wrapped method runs first; a throw is propagated with no
mutation; on success the new value is set under the resolved key and the
`cacheKeysToClear` keys are then cleared. -/
def cacheUpdateRun (cfg : CacheUpdateOptions) (mgr : CacheManagerState) (methodName : String)
    (args : List String) (ctx : Option String) (method : Except String String) : RunResult :=
  if cfg.noop then
    ⟨method, resolveClient cfg.client mgr.client,
      resolveClient cfg.fallbackClient mgr.fallbackClient, [Op.invokeOp]⟩
  else
    match method with
    | Except.error e =>
      ⟨Except.error e, resolveClient cfg.client mgr.client,
        resolveClient cfg.fallbackClient mgr.fallbackClient, [Op.invokeOp]⟩
    | Except.ok v =>
      match resolveClient cfg.client mgr.client with
      | none =>
        ⟨Except.ok v, none, resolveClient cfg.fallbackClient mgr.fallbackClient, [Op.invokeOp]⟩
      | some p =>
        cacheUpdateGo cfg mgr p (resolveClient cfg.fallbackClient mgr.fallbackClient)
          methodName args ctx v

/-- A client on which every backend operation fails (used to state degraded
behaviour). -/
def allOpsFail (c : CacheClient) : Bool :=
  c.getFails && c.setFails && c.delFails && c.keysFails

/-- Every resolved client (primary and, when configured, fallback) fails all
of its operations. -/
def clientsAllFail (p f : Option CacheClient) : Bool :=
  (match p with | none => true | some c => allOpsFail c) &&
  (match f with | none => true | some c => allOpsFail c)

/-- A Cache Manager with no global clients, default `excludeContext` and
default TTL. -/
def defaultMgr : CacheManagerState := ⟨none, none, true, 0⟩

/-- A healthy client whose store already holds the value `hit` under `k`. -/
def hitClient : CacheClient := ⟨[("k", "hit")], false, false, false, false⟩

/-- A healthy client with an empty store. -/
def emptyClient : CacheClient := ⟨[], false, false, false, false⟩

/-- A healthy client whose store holds a stale value under `k`. -/
def staleClient : CacheClient := ⟨[("k", "stale")], false, false, false, false⟩

/-- Cacheable options with literal key `k` and the `hitClient`. -/
def hitCfg : CacheOptions :=
  ⟨some (KeySpec.lit "k"), none, some hitClient, none, false, none⟩

/-- Cacheable options with literal key `k` and the `emptyClient`. -/
def missCfg : CacheOptions :=
  ⟨some (KeySpec.lit "k"), none, some emptyClient, none, false, none⟩

/-- Cacheable options over a healthy client holding a stale value, whose TTL
builder always throws. -/
def ttlThrowCfg : CacheOptions :=
  ⟨some (KeySpec.lit "k"), none, some staleClient, none, false,
    some (TTLSpec.build (fun _ => none))⟩

/-- Cacheable options naming no client at all. -/
def noClientCfg : CacheOptions :=
  ⟨some (KeySpec.lit "k"), none, none, none, false, none⟩

/-- CacheClear options naming no client at all. -/
def noClientClearCfg : CacheClearOptions :=
  ⟨some (DelSpec.lit "k"), none, none, false, false⟩

/-- CacheUpdate options naming no client at all. -/
def noClientUpdateCfg : CacheUpdateOptions :=
  ⟨some (KeySpec.lit "k"), none, none, none, none, false, none, false, false⟩

/-- CacheUpdate options updating key `k` and clearing the disjoint keys `a`
and `b` on a healthy client holding both. -/
def updateCfg : CacheUpdateOptions :=
  ⟨some (KeySpec.lit "k"), none, some (DelSpec.lits ["a", "b"]),
    some ⟨[("a", "1"), ("b", "2")], false, false, false, false⟩, none, false, none, false, false⟩

/-- CacheUpdate options whose updated key `k` is itself listed in
`cacheKeysToClear` (the overlap disproving the unrestricted final-state
claim). -/
def overlapCfg : CacheUpdateOptions :=
  ⟨some (KeySpec.lit "k"), none, some (DelSpec.lits ["k"]), some emptyClient, none, false,
    none, false, false⟩

/-- The README's pattern-deletion example store. -/
def fooStore : Store := [("foo", "1"), ("foolish", "2"), ("foo-bar", "3"), ("bar", "4")]

/-- A healthy client over `fooStore`. -/
def fooClient : CacheClient := ⟨fooStore, false, false, false, false⟩

/-- CacheClear options deleting by the glob pattern `foo*` on `fooClient`. -/
def fooClearCfg : CacheClearOptions :=
  ⟨some (DelSpec.lit "foo*"), some fooClient, none, false, true⟩

/-- Cacheable options with `noop` set. -/
def noopCfg : CacheOptions :=
  ⟨some (KeySpec.lit "k"), none, some hitClient, none, true, none⟩

/-- CacheClear options with `noop` set. -/
def noopClearCfg : CacheClearOptions :=
  ⟨some (DelSpec.lit "k"), some hitClient, none, true, false⟩

/-- CacheUpdate options with `noop` set. -/
def noopUpdateCfg : CacheUpdateOptions :=
  ⟨some (KeySpec.lit "k"), none, none, some hitClient, none, true, none, false, false⟩

theorem memStr_iff (l : List String) (k : String) : memStr l k = true ↔ k ∈ l := by
  induction l with
  | nil => simp [memStr]
  | cons a tl ih =>
    by_cases h : a = k
    · subst h
      simp [memStr]
    · simp [memStr, h, ih, Ne.symm h]

theorem storeGet_storeDel (st : Store) (ks : List String) (k : String) :
    storeGet (storeDel st ks) k = if memStr ks k then none else storeGet st k := by
  induction st with
  | nil => simp [storeDel, storeGet]
  | cons a tl ih =>
    obtain ⟨k2, v⟩ := a
    by_cases h2 : memStr ks k2 = true
    · by_cases hk : k2 = k
      · subst hk
        simp [storeDel, storeGet, h2, ih]
      · simp [storeDel, storeGet, h2, hk, ih]
    · by_cases hk : k2 = k
      · subst hk
        simp [storeDel, storeGet, h2, ih]
      · simp [storeDel, storeGet, h2, hk, ih]

theorem storeGet_storeSet_self (st : Store) (k v : String) :
    storeGet (storeSet st k v) k = some v := by
  simp [storeSet, storeGet]

theorem storeGet_del_matching (st : Store) (pat k : String) :
    storeGet (storeDel st (storeKeysMatching st pat)) k =
      if globMatch pat k then none else storeGet st k := by
  rw [storeGet_storeDel]
  by_cases hg : globMatch pat k = true
  · simp only [hg, if_true]
    by_cases hm : memStr (storeKeysMatching st pat) k = true
    · simp [hm]
    · simp only [Bool.not_eq_true] at hm
      simp only [hm, Bool.false_eq_true, if_false]
      induction st with
      | nil => simp [storeGet]
      | cons a tl ih =>
        obtain ⟨k2, v⟩ := a
        by_cases hk : k2 = k
        · subst hk
          simp [storeKeysMatching, hg, memStr] at hm
        · simp only [storeGet, hk, if_false]
          apply ih
          by_cases hg2 : globMatch pat k2 = true
          · simpa [storeKeysMatching, hg2, memStr, hk] using hm
          · simpa [storeKeysMatching, hg2] using hm
  · have hmem : memStr (storeKeysMatching st pat) k = false := by
      induction st with
      | nil => simp [storeKeysMatching, memStr]
      | cons a tl ih =>
        obtain ⟨k2, v⟩ := a
        by_cases hg2 : globMatch pat k2 = true
        · have hk : ¬ (k2 = k) := by
            intro hkk
            subst hkk
            exact hg hg2
          simp [storeKeysMatching, hg2, memStr, hk, ih]
        · simp [storeKeysMatching, hg2, ih]
    simp [hmem, hg]

theorem all_del_isNone (st : Store) (ks : List String) :
    (ks.all fun k => (storeGet (storeDel st ks) k).isNone) = true := by
  rw [List.all_eq_true]
  intro k hk
  rw [storeGet_storeDel, if_pos ((memStr_iff ks k).2 hk)]
  rfl

theorem clientGet_of_getFails (c : CacheClient) (k : String) (h : c.getFails = true) :
    clientGet c k = none := by
  simp [clientGet, h]

theorem cacheableMiss_outcome (t : Option TTLSpec) (mgr : CacheManagerState)
    (p : CacheClient) (f0 : Option CacheClient) (key : String) (a : List String)
    (m : Except String String) (tr : List Op) :
    (cacheableMiss t mgr p f0 key a m tr).outcome = m := by
  unfold cacheableMiss
  repeat' split
  all_goals rfl

theorem cacheClearRun_outcome (cfg : CacheClearOptions) (mgr : CacheManagerState)
    (n : String) (a : List String) (c : Option String) (m : Except String String) :
    (cacheClearRun cfg mgr n a c m).outcome = m := by
  unfold cacheClearRun
  repeat' split
  all_goals rfl

theorem cacheUpdateGo_outcome (cfg : CacheUpdateOptions) (mgr : CacheManagerState)
    (p : CacheClient) (f0 : Option CacheClient) (n : String) (a : List String)
    (c : Option String) (v : String) :
    (cacheUpdateGo cfg mgr p f0 n a c v).outcome = Except.ok v := by
  unfold cacheUpdateGo
  repeat' split
  all_goals rfl

theorem cacheUpdateRun_outcome (cfg : CacheUpdateOptions) (mgr : CacheManagerState)
    (n : String) (a : List String) (c : Option String) (m : Except String String) :
    (cacheUpdateRun cfg mgr n a c m).outcome = m := by
  unfold cacheUpdateRun
  repeat' split
  all_goals first
  | rfl
  | apply cacheUpdateGo_outcome

/-- Claim C1: under the Cacheable strategy, a decorated call whose backend get
returns a non-empty value (a HIT) returns the deserialized cached value to the
caller, and the wrapped method is never invoked. -/
theorem cacheable_hit_returns_cached (cfg : CacheOptions) (mgr : CacheManagerState)
    (n : String) (a : List String) (c : Option String) (m : Except String String)
    (p : CacheClient) (key v : String)
    (hn : cfg.noop = false)
    (hp : resolveClient cfg.client mgr.client = some p)
    (hk : getFinalKey cfg.cacheKey cfg.hashKey n a c none mgr.excludeContext = some key)
    (hg : clientGet p key = some (some v)) :
    (cacheableRun cfg mgr n a c m).outcome = Except.ok v ∧
    (cacheableRun cfg mgr n a c m).trace = [Op.getOp key] ∧
    Op.invokeOp ∉ (cacheableRun cfg mgr n a c m).trace := by
  have hrun : cacheableRun cfg mgr n a c m =
      ⟨Except.ok v, some p, resolveClient cfg.fallbackClient mgr.fallbackClient,
        [Op.getOp key]⟩ := by
    unfold cacheableRun
    rw [hn]
    simp only [Bool.false_eq_true, if_false, hp]
    unfold cacheableGo
    simp only [hk, hg]
  rw [hrun]
  refine ⟨rfl, rfl, ?_⟩
  simp

/-- Witness for C1: with a healthy client holding `hit` under the literal key
`k`, the decorated call returns the cached value and records no invocation. -/
theorem cacheable_hit_returns_cached_witness :
    (cacheableRun hitCfg defaultMgr "m" [] none (Except.ok "fresh")).outcome =
      Except.ok "hit" ∧
    (cacheableRun hitCfg defaultMgr "m" [] none (Except.ok "fresh")).trace =
      [Op.getOp "k"] ∧
    Op.invokeOp ∉ (cacheableRun hitCfg defaultMgr "m" [] none (Except.ok "fresh")).trace :=
  cacheable_hit_returns_cached hitCfg defaultMgr "m" [] none (Except.ok "fresh")
    hitClient "k" "hit" rfl rfl rfl rfl

/-- Claim C5: a CacheClear call whose wrapped method throws propagates the
error with the backend left completely unmutated (the trace holds the
invocation only, and the resolved clients are returned unchanged); deletion
failures on a successful call are swallowed and the method's result is still
returned. -/
theorem cacheClear_error_no_mutation (cfg : CacheClearOptions) (mgr : CacheManagerState)
    (n : String) (a : List String) (c : Option String) (e v : String) :
    cacheClearRun cfg mgr n a c (Except.error e) =
      ⟨Except.error e, resolveClient cfg.client mgr.client,
        resolveClient cfg.fallbackClient mgr.fallbackClient, [Op.invokeOp]⟩ ∧
    (cacheClearRun cfg mgr n a c (Except.ok v)).outcome = Except.ok v := by
  constructor
  · unfold cacheClearRun
    split
    · rfl
    · rfl
  · exact cacheClearRun_outcome cfg mgr n a c (Except.ok v)

/-- Claim C6: the auto-generated cache key is a deterministic function of the
method identity, the argument sequence, the receiver and the `excludeContext`
setting — two invocations agreeing on that tuple produce equal keys. -/
theorem autoKey_deterministic (m1 m2 : String) (a1 a2 : List String)
    (c1 c2 : Option String) (e1 e2 : Bool)
    (hm : m1 = m2) (ha : a1 = a2) (hc : c1 = c2) (he : e1 = e2) :
    getCacheKey none m1 a1 c1 none e1 = getCacheKey none m2 a2 c2 none e2 := by
  subst hm
  subst ha
  subst hc
  subst he
  rfl

/-- Witness for C6: two identical invocation tuples yield the same
auto-generated key. -/
theorem autoKey_deterministic_witness :
    getCacheKey none "getValue" ["1"] (some "ctx") none true =
      getCacheKey none "getValue" ["1"] (some "ctx") none true :=
  autoKey_deterministic "getValue" "getValue" ["1"] ["1"] (some "ctx") (some "ctx")
    true true rfl rfl rfl rfl

/-- Claim C9: with `noop` resolving true, every strategy invokes the wrapped
method directly, returns its result, performs zero backend operations and
leaves the resolved clients untouched. -/
theorem noop_is_pass_through (gcfg : CacheOptions) (ccfg : CacheClearOptions)
    (ucfg : CacheUpdateOptions) (mgr : CacheManagerState) (n : String)
    (a : List String) (c : Option String) (m : Except String String)
    (h1 : gcfg.noop = true) (h2 : ccfg.noop = true) (h3 : ucfg.noop = true) :
    cacheableRun gcfg mgr n a c m =
      ⟨m, resolveClient gcfg.client mgr.client,
        resolveClient gcfg.fallbackClient mgr.fallbackClient, [Op.invokeOp]⟩ ∧
    cacheClearRun ccfg mgr n a c m =
      ⟨m, resolveClient ccfg.client mgr.client,
        resolveClient ccfg.fallbackClient mgr.fallbackClient, [Op.invokeOp]⟩ ∧
    cacheUpdateRun ucfg mgr n a c m =
      ⟨m, resolveClient ucfg.client mgr.client,
        resolveClient ucfg.fallbackClient mgr.fallbackClient, [Op.invokeOp]⟩ := by
  refine ⟨?_, ?_, ?_⟩
  · unfold cacheableRun
    rw [h1]
    rfl
  · unfold cacheClearRun
    rw [h2]
    rfl
  · unfold cacheUpdateRun
    rw [h3]
    rfl

/-- Witness for C9: concrete noop configurations over a populated client
produce direct invocation with a bare `[invokeOp]` trace for all three
strategies. -/
theorem noop_is_pass_through_witness :
    cacheableRun noopCfg defaultMgr "m" [] none (Except.ok "fresh") =
      ⟨Except.ok "fresh", some hitClient, none, [Op.invokeOp]⟩ ∧
    cacheClearRun noopClearCfg defaultMgr "m" [] none (Except.ok "fresh") =
      ⟨Except.ok "fresh", some hitClient, none, [Op.invokeOp]⟩ ∧
    cacheUpdateRun noopUpdateCfg defaultMgr "m" [] none (Except.ok "fresh") =
      ⟨Except.ok "fresh", some hitClient, none, [Op.invokeOp]⟩ :=
  noop_is_pass_through noopCfg noopClearCfg noopUpdateCfg defaultMgr "m" [] none
    (Except.ok "fresh") rfl rfl rfl

/-- Claim C10: with a configured `hashKey`, the final storage key is the
resolved hash key and the resolved cache key joined as `hashKey:cacheKey`;
with no `hashKey`, the final key is the resolved cache key alone. -/
theorem getFinalKey_combines (ckSpec : Option KeySpec) (hk ck n : String)
    (a : List String) (c r : Option String) (e : Bool)
    (h : getCacheKey ckSpec n a c r e = some ck) :
    getFinalKey ckSpec (some (KeySpec.lit hk)) n a c r e = some (hk ++ ":" ++ ck) ∧
    getFinalKey ckSpec none n a c r e = some ck := by
  unfold getFinalKey
  rw [h]
  exact ⟨rfl, rfl⟩

/-- Witness for C10: hash key `user` with a builder cache key resolving to
`123` stores under `user:123`; without the hash key the final key is `123`. -/
theorem getFinalKey_combines_witness :
    getFinalKey (some (KeySpec.build (fun a2 _ _ => a2.head?))) (some (KeySpec.lit "user"))
        "getUserById" ["123"] none none true = some "user:123" ∧
    getFinalKey (some (KeySpec.build (fun a2 _ _ => a2.head?))) none
        "getUserById" ["123"] none none true = some "123" :=
  getFinalKey_combines (some (KeySpec.build (fun a2 _ _ => a2.head?))) "user" "123"
    "getUserById" ["123"] none none true rfl

/-- Claim C2: on a Cacheable MISS, a throwing wrapped method propagates its
error untouched with no cache write (the primary client is returned unchanged
and the trace holds no set); a resolving method has its value returned to the
caller even when the set fails, and when the set succeeds the value is written
under the resolved key, from where it is subsequently retrievable. -/
theorem cacheable_miss_writes_through (cfg : CacheOptions) (mgr : CacheManagerState)
    (n : String) (a : List String) (c : Option String) (p : CacheClient)
    (key e v : String) (ttl : Nat)
    (hn : cfg.noop = false)
    (hp : resolveClient cfg.client mgr.client = some p)
    (hf : resolveClient cfg.fallbackClient mgr.fallbackClient = none)
    (hk : getFinalKey cfg.cacheKey cfg.hashKey n a c none mgr.excludeContext = some key)
    (hg : clientGet p key = some none)
    (ht : getTTL cfg.ttlSeconds a mgr.ttlSeconds = some ttl) :
    cacheableRun cfg mgr n a c (Except.error e) =
      ⟨Except.error e, some p, none, [Op.getOp key, Op.invokeOp]⟩ ∧
    (cacheableRun cfg mgr n a c (Except.ok v)).outcome = Except.ok v ∧
    (p.setFails = false →
      (cacheableRun cfg mgr n a c (Except.ok v)).primary =
        some { p with store := storeSet p.store key v } ∧
      storeGet (((cacheableRun cfg mgr n a c (Except.ok v)).primary.getD p).store) key =
        some v) := by
  have hrun : ∀ m : Except String String, cacheableRun cfg mgr n a c m =
      cacheableMiss cfg.ttlSeconds mgr p none key a m [Op.getOp key] := by
    intro m
    unfold cacheableRun
    rw [hn]
    simp only [Bool.false_eq_true, if_false, hp, hf]
    unfold cacheableGo
    simp only [hk, hg]
  refine ⟨?_, ?_, ?_⟩
  · rw [hrun]
    unfold cacheableMiss
    rfl
  · rw [hrun]
    exact cacheableMiss_outcome cfg.ttlSeconds mgr p none key a (Except.ok v) [Op.getOp key]
  · intro hsf
    rw [hrun]
    unfold cacheableMiss
    simp only [ht]
    have hset : clientSet p key v ttl = some { p with store := storeSet p.store key v } := by
      simp [clientSet, hsf]
    rw [hset]
    refine ⟨rfl, ?_⟩
    simp only [Option.getD_some]
    exact storeGet_storeSet_self p.store key v

/-- Witness for C2: on an empty healthy client with literal key `k`, an error
propagates without a write, and a resolved value is returned and becomes
retrievable under `k`. -/
theorem cacheable_miss_writes_through_witness :
    cacheableRun missCfg defaultMgr "m" [] none (Except.error "boom") =
      ⟨Except.error "boom", some emptyClient, none, [Op.getOp "k", Op.invokeOp]⟩ ∧
    (cacheableRun missCfg defaultMgr "m" [] none (Except.ok "fresh")).outcome =
      Except.ok "fresh" ∧
    (emptyClient.setFails = false →
      (cacheableRun missCfg defaultMgr "m" [] none (Except.ok "fresh")).primary =
        some { emptyClient with store := storeSet emptyClient.store "k" "fresh" } ∧
      storeGet (((cacheableRun missCfg defaultMgr "m" [] none
          (Except.ok "fresh")).primary.getD emptyClient).store) "k" = some "fresh") :=
  cacheable_miss_writes_through missCfg defaultMgr "m" [] none emptyClient "k" "boom"
    "fresh" 0 rfl rfl rfl rfl rfl rfl

/-- Claim C8: a call-site client overrides the global default and omitting it
falls back to the global default (same rule for the fallback client); when
both are absent, every strategy falls through to direct invocation of the
wrapped method with no backend operation and no error. -/
theorem client_resolution_precedence (cl : CacheClient) (g : Option CacheClient)
    (gcfg : CacheOptions) (ccfg : CacheClearOptions) (ucfg : CacheUpdateOptions)
    (mgr : CacheManagerState) (n : String) (a : List String) (c : Option String)
    (m : Except String String)
    (h1 : gcfg.client = none) (h2 : mgr.client = none)
    (h3 : ccfg.client = none) (h4 : ucfg.client = none) :
    resolveClient (some cl) g = some cl ∧
    resolveClient none g = g ∧
    ((cacheableRun gcfg mgr n a c m).outcome = m ∧
      (cacheableRun gcfg mgr n a c m).trace = [Op.invokeOp]) ∧
    ((cacheClearRun ccfg mgr n a c m).outcome = m ∧
      (cacheClearRun ccfg mgr n a c m).trace = [Op.invokeOp]) ∧
    ((cacheUpdateRun ucfg mgr n a c m).outcome = m ∧
      (cacheUpdateRun ucfg mgr n a c m).trace = [Op.invokeOp]) := by
  have hg : resolveClient gcfg.client mgr.client = none := by
    rw [h1]
    unfold resolveClient
    exact h2
  have hcc : resolveClient ccfg.client mgr.client = none := by
    rw [h3]
    unfold resolveClient
    exact h2
  have huc : resolveClient ucfg.client mgr.client = none := by
    rw [h4]
    unfold resolveClient
    exact h2
  refine ⟨rfl, rfl, ?_, ?_, ?_⟩
  · unfold cacheableRun
    split
    · exact ⟨rfl, rfl⟩
    · rw [hg]
      exact ⟨rfl, rfl⟩
  · unfold cacheClearRun
    split
    · exact ⟨rfl, rfl⟩
    · cases m with
      | error e => exact ⟨rfl, rfl⟩
      | ok v =>
        rw [hcc]
        exact ⟨rfl, rfl⟩
  · unfold cacheUpdateRun
    split
    · exact ⟨rfl, rfl⟩
    · cases m with
      | error e => exact ⟨rfl, rfl⟩
      | ok v =>
        rw [huc]
        exact ⟨rfl, rfl⟩

/-- Witness for C8: with no call-site client and no global client, all three
strategies degrade to direct invocation without error. -/
theorem client_resolution_precedence_witness :
    resolveClient (some hitClient) none = some hitClient ∧
    resolveClient none none = (none : Option CacheClient) ∧
    ((cacheableRun noClientCfg defaultMgr "m" [] none (Except.ok "fresh")).outcome =
        Except.ok "fresh" ∧
      (cacheableRun noClientCfg defaultMgr "m" [] none (Except.ok "fresh")).trace =
        [Op.invokeOp]) ∧
    ((cacheClearRun noClientClearCfg defaultMgr "m" [] none (Except.ok "fresh")).outcome =
        Except.ok "fresh" ∧
      (cacheClearRun noClientClearCfg defaultMgr "m" [] none (Except.ok "fresh")).trace =
        [Op.invokeOp]) ∧
    ((cacheUpdateRun noClientUpdateCfg defaultMgr "m" [] none (Except.ok "fresh")).outcome =
        Except.ok "fresh" ∧
      (cacheUpdateRun noClientUpdateCfg defaultMgr "m" [] none (Except.ok "fresh")).trace =
        [Op.invokeOp]) :=
  client_resolution_precedence hitClient none noClientCfg noClientClearCfg noClientUpdateCfg
    defaultMgr "m" [] none (Except.ok "fresh") rfl rfl rfl rfl

/-- Claim C3 (amended): caller-visible outcomes never surface caching-layer
failures — CacheClear and CacheUpdate always yield exactly the undecorated
method's outcome, and a Cacheable call yields it whenever no client is
resolvable, the cacheKey/hashKey resolution fails, or every resolved client
fails all of its operations.  (The original claim also covered a throwing TTL
builder; a Cacheable call with a healthy backend can still serve a HIT in that
case, so it need not equal the direct call — see the counterexample.) -/
theorem caching_failures_pass_through
    (gcfg : CacheOptions) (ccfg : CacheClearOptions) (ucfg : CacheUpdateOptions)
    (mgr : CacheManagerState) (n : String) (a : List String) (c : Option String)
    (m : Except String String)
    (h : resolveClient gcfg.client mgr.client = none
      ∨ getFinalKey gcfg.cacheKey gcfg.hashKey n a c none mgr.excludeContext = none
      ∨ clientsAllFail (resolveClient gcfg.client mgr.client)
          (resolveClient gcfg.fallbackClient mgr.fallbackClient) = true) :
    (cacheableRun gcfg mgr n a c m).outcome = m ∧
    (cacheClearRun ccfg mgr n a c m).outcome = m ∧
    (cacheUpdateRun ucfg mgr n a c m).outcome = m := by
  refine ⟨?_, cacheClearRun_outcome ccfg mgr n a c m, cacheUpdateRun_outcome ucfg mgr n a c m⟩
  unfold cacheableRun
  split
  · rfl
  · cases hp : resolveClient gcfg.client mgr.client with
    | none => rfl
    | some p =>
      rcases h with h | h | h
      · rw [hp] at h
        exact absurd h (by simp)
      · simp only [cacheableGo, h]
      · rw [hp] at h
        have hap : allOpsFail p = true := by
          simp only [clientsAllFail, Bool.and_eq_true] at h
          exact h.1
        have hpg : p.getFails = true := by
          simp only [allOpsFail, Bool.and_eq_true] at hap
          exact hap.1.1.1
        cases hkey : getFinalKey gcfg.cacheKey gcfg.hashKey n a c none mgr.excludeContext with
        | none => simp only [cacheableGo, hkey]
        | some key =>
          simp only [cacheableGo, hkey, clientGet_of_getFails p key hpg]
          cases hf0 : resolveClient gcfg.fallbackClient mgr.fallbackClient with
          | none =>
            simp only [cacheableMiss_outcome]
          | some fb =>
            have haf : allOpsFail fb = true := by
              rw [hf0] at h
              simp only [clientsAllFail, Bool.and_eq_true] at h
              exact h.2
            have hfg : fb.getFails = true := by
              simp only [allOpsFail, Bool.and_eq_true] at haf
              exact haf.1.1.1
            simp only [clientGet_of_getFails fb key hfg, cacheableMiss_outcome]

/-- Witness for C3: with every operation failing on the only resolved client,
a Cacheable call (and the other strategies) still return the wrapped method's
own outcome. -/
theorem caching_failures_pass_through_witness :
    (cacheableRun
        ⟨some (KeySpec.lit "k"), none, some ⟨[], true, true, true, true⟩, none, false, none⟩
        defaultMgr "m" [] none (Except.ok "fresh")).outcome = Except.ok "fresh" ∧
    (cacheClearRun noClientClearCfg defaultMgr "m" [] none (Except.ok "fresh")).outcome =
      Except.ok "fresh" ∧
    (cacheUpdateRun noClientUpdateCfg defaultMgr "m" [] none
        (Except.ok "fresh")).outcome = Except.ok "fresh" :=
  caching_failures_pass_through
    ⟨some (KeySpec.lit "k"), none, some ⟨[], true, true, true, true⟩, none, false, none⟩
    noClientClearCfg noClientUpdateCfg defaultMgr "m" [] none (Except.ok "fresh")
    (Or.inr (Or.inr rfl))

/-- Counterexample for C3 as stated: a TTL builder that always throws is a
caching-layer failure behaviour, yet with a healthy backend holding a stale
value the Cacheable call returns the cached `stale` instead of the direct
outcome `fresh`. -/
theorem caching_failures_counterexample :
    (cacheableRun ttlThrowCfg defaultMgr "m" [] none (Except.ok "fresh")).outcome =
      Except.ok "stale" ∧
    (cacheableRun ttlThrowCfg defaultMgr "m" [] none (Except.ok "fresh")).outcome ≠
      Except.ok "fresh" := by
  constructor
  · rfl
  · decide

/-- Claim C7: a CacheClear call with `isPattern` treats each resolved key as a
glob-style pattern — the matching keys are listed via `keys(pattern)` and
exactly that set is deleted from the store, while the method's result is
returned. -/
theorem cacheClear_pattern_deletes_matching (cfg : CacheClearOptions)
    (mgr : CacheManagerState) (n : String) (a : List String) (c : Option String)
    (v : String) (p : CacheClient) (pat : String)
    (hn : cfg.noop = false)
    (hip : cfg.isPattern = true)
    (hp : resolveClient cfg.client mgr.client = some p)
    (hf : resolveClient cfg.fallbackClient mgr.fallbackClient = none)
    (hk : resolveDelKeys cfg.cacheKey n a c mgr.excludeContext = some [pat])
    (hkf : p.keysFails = false)
    (hdf : p.delFails = false) :
    (cacheClearRun cfg mgr n a c (Except.ok v)).outcome = Except.ok v ∧
    (cacheClearRun cfg mgr n a c (Except.ok v)).primary =
      some { p with store := storeDel p.store (storeKeysMatching p.store pat) } ∧
    (cacheClearRun cfg mgr n a c (Except.ok v)).trace =
      [Op.invokeOp, Op.keysOp pat, Op.delOp (storeKeysMatching p.store pat)] := by
  have hck : clientKeys p pat = some (storeKeysMatching p.store pat) := by
    simp [clientKeys, hkf]
  have hcd : clientDel p (storeKeysMatching p.store pat) =
      some { p with store := storeDel p.store (storeKeysMatching p.store pat) } := by
    simp [clientDel, hdf]
  have hrun : cacheClearRun cfg mgr n a c (Except.ok v) =
      ⟨Except.ok v,
        some { p with store := storeDel p.store (storeKeysMatching p.store pat) }, none,
        [Op.invokeOp, Op.keysOp pat, Op.delOp (storeKeysMatching p.store pat)]⟩ := by
    unfold cacheClearRun
    rw [hn]
    simp only [Bool.false_eq_true, if_false, hp, hf, hk, hip]
    unfold clearKeysRun
    simp only [if_true, List.foldl_cons, List.foldl_nil, hck]
    unfold delWithFallback
    simp only [hcd]
    rfl
  rw [hrun]
  exact ⟨rfl, rfl, rfl⟩

/-- Witness for C7 (the README example): with backend keys `foo`, `foolish`,
`foo-bar` and `bar`, clearing with pattern `foo*` removes the first three and
leaves `bar`. -/
theorem cacheClear_pattern_witness :
    (cacheClearRun fooClearCfg defaultMgr "m" [] none (Except.ok "done")).outcome =
      Except.ok "done" ∧
    (cacheClearRun fooClearCfg defaultMgr "m" [] none (Except.ok "done")).primary =
      some ⟨[("bar", "4")], false, false, false, false⟩ ∧
    (cacheClearRun fooClearCfg defaultMgr "m" [] none (Except.ok "done")).trace =
      [Op.invokeOp, Op.keysOp "foo*", Op.delOp ["foo", "foolish", "foo-bar"]] :=
  cacheClear_pattern_deletes_matching fooClearCfg defaultMgr "m" [] none "done" fooClient
    "foo*" rfl rfl rfl rfl rfl rfl rfl

/-- Claim C4 (amended): a fully successful CacheUpdate call sets the updated
key before any delete is issued (the trace is invoke, set, then del), and the
final backend state holds the new value under the updated key with every
`cacheKeysToClear` key absent — provided the updated key is not itself among
the cleared keys.  (The original claim demanded this for every successful
call; when the updated key occurs in `cacheKeysToClear` the clear step removes
it again — see the counterexample.  The parallel mode's backend effects
coincide with the sequential set-then-clear interleaving in this
single-threaded model.) -/
theorem cacheUpdate_sets_then_clears (cfg : CacheUpdateOptions) (mgr : CacheManagerState)
    (n : String) (a : List String) (c : Option String) (v : String) (p : CacheClient)
    (key : String) (ttl : Nat) (ks : List String)
    (hn : cfg.noop = false)
    (hp : resolveClient cfg.client mgr.client = some p)
    (hf : resolveClient cfg.fallbackClient mgr.fallbackClient = none)
    (hk : getFinalKey cfg.cacheKey cfg.hashKey n a c (some v) mgr.excludeContext = some key)
    (ht : getTTL cfg.ttlSeconds a mgr.ttlSeconds = some ttl)
    (hks : resolveClearList cfg.cacheKeysToClear a c = some ks)
    (hne : ks ≠ [])
    (hpat : cfg.isPattern = false)
    (hsf : p.setFails = false)
    (hdf : p.delFails = false)
    (hmem : memStr ks key = false) :
    (cacheUpdateRun cfg mgr n a c (Except.ok v)).outcome = Except.ok v ∧
    (cacheUpdateRun cfg mgr n a c (Except.ok v)).primary =
      some { p with store := storeDel (storeSet p.store key v) ks } ∧
    storeGet (storeDel (storeSet p.store key v) ks) key = some v ∧
    (ks.all fun k2 => (storeGet (storeDel (storeSet p.store key v) ks) k2).isNone) = true ∧
    (cfg.clearAndUpdateInParallel = false →
      (cacheUpdateRun cfg mgr n a c (Except.ok v)).trace =
        [Op.invokeOp, Op.setOp key v, Op.delOp ks]) := by
  have hset : clientSet p key v ttl = some { p with store := storeSet p.store key v } := by
    simp [clientSet, hsf]
  have hdel : clientDel { p with store := storeSet p.store key v } ks =
      some { p with store := storeDel (storeSet p.store key v) ks } := by
    simp [clientDel, hdf]
  cases ks with
  | nil => exact absurd rfl hne
  | cons k1 ktl =>
    have hrun : cacheUpdateRun cfg mgr n a c (Except.ok v) =
        ⟨Except.ok v, some { p with store := storeDel (storeSet p.store key v) (k1 :: ktl) },
          none, [Op.invokeOp, Op.setOp key v, Op.delOp (k1 :: ktl)]⟩ := by
      unfold cacheUpdateRun
      rw [hn]
      simp only [Bool.false_eq_true, if_false, hp]
      unfold cacheUpdateGo
      simp only [hk, ht, hf, hks, hset, Option.getD_some]
      unfold clearKeysRun
      simp only [hpat, Bool.false_eq_true, if_false]
      unfold delWithFallback
      simp only [hdel]
      rfl
    refine ⟨?_, ?_, ?_, ?_, ?_⟩
    · rw [hrun]
    · rw [hrun]
    · rw [storeGet_storeDel, hmem]
      simp only [Bool.false_eq_true, if_false]
      exact storeGet_storeSet_self p.store key v
    · exact all_del_isNone (storeSet p.store key v) (k1 :: ktl)
    · intro _
      rw [hrun]

/-- Witness for C4: updating key `k` while clearing the disjoint keys `a` and
`b` leaves `k` holding the new value, removes `a` and `b`, and issues the set
before the del. -/
theorem cacheUpdate_sets_then_clears_witness :
    (cacheUpdateRun updateCfg defaultMgr "m" [] none (Except.ok "new")).outcome =
      Except.ok "new" ∧
    (cacheUpdateRun updateCfg defaultMgr "m" [] none (Except.ok "new")).primary =
      some ⟨[("k", "new")], false, false, false, false⟩ ∧
    storeGet (storeDel (storeSet [("a", "1"), ("b", "2")] "k" "new") ["a", "b"]) "k" =
      some "new" ∧
    (["a", "b"].all fun k2 =>
      (storeGet (storeDel (storeSet [("a", "1"), ("b", "2")] "k" "new") ["a", "b"])
        k2).isNone) = true ∧
    (updateCfg.clearAndUpdateInParallel = false →
      (cacheUpdateRun updateCfg defaultMgr "m" [] none (Except.ok "new")).trace =
        [Op.invokeOp, Op.setOp "k" "new", Op.delOp ["a", "b"]]) :=
  cacheUpdate_sets_then_clears updateCfg defaultMgr "m" [] none "new"
    ⟨[("a", "1"), ("b", "2")], false, false, false, false⟩ "k" 0 ["a", "b"]
    rfl rfl rfl rfl rfl rfl (by decide) rfl rfl rfl (by decide)

/-- Counterexample for C4 as stated: when the updated key `k` itself occurs in
`cacheKeysToClear`, a fully successful call (method succeeded, all backend
operations succeeded) ends with `k` absent from the store, not holding the new
value. -/
theorem cacheUpdate_overlap_counterexample :
    ∃ p2, (cacheUpdateRun overlapCfg defaultMgr "m" [] none (Except.ok "v")).primary =
        some p2 ∧
      storeGet p2.store "k" = none :=
  ⟨⟨[], false, false, false, false⟩, by decide, by decide⟩
